import Mathlib

/-!
Verification development for the d-cogs Guild-State Broadcast Bridge
(`src/dworld`): a shallow embedding of the data model and the operations of
the websocket server manager, config manager and listener manager, with
theorems checking the specification's claims against the embedded code.

Python dicts are modelled as association lists with insert-or-replace
(`dictSet`), preserving insertion order as CPython does; persisted
configuration is modelled as explicit state records; the Discord identity
provider HTTP call is an oracle input; Python exceptions are modelled with
`Except PyErr`.
-/

/-- Python exceptions that the embedded code can raise or catch. -/
inductive PyErr where
  | clientError   -- aiohttp.ClientError
  | valueError    -- e.g. int() on a non-numeric string
  | other         -- any other Exception
  deriving Repr, DecidableEq

/-- Truthiness of an optional string, as Python evaluates `not x` for a value
that is either `None` or a `str`: `None` and `""` are falsy. -/
def optStrTruthy : Option String → Bool
  | none => false
  | some s => s ≠ ""

/-- Value of a list of decimal digit characters. -/
def decDigitsVal (ds : List Char) : Nat :=
  ds.foldl (fun acc c => acc * 10 + (c.toNat - 48)) 0

/-- Models Python `int(s)` on a plain decimal string (optional leading
minus): the parsed integer, or a `ValueError`. -/
def str_to_int (s : String) : Except PyErr Int :=
  match s.data with
  | [] => .error .valueError
  | '-' :: ds =>
      if !ds.isEmpty && ds.all Char.isDigit then .ok (-(decDigitsVal ds : Int))
      else .error .valueError
  | ds =>
      if ds.all Char.isDigit then .ok (decDigitsVal ds)
      else .error .valueError

/-- The dict `STATUS_MAPPING` from `listener_manager.py` (the same literal dict is
inlined in `get_user_data` of `websocket_server_manager.py`,
`websocket_server_mixin.py` and `dworld.py`). -/
def STATUS_MAPPING : List (String × String) :=
  [("online", "online"), ("idle", "idle"), ("dnd", "dnd"),
   ("offline", "offline"), ("invisible", "offline")]

/-- Lookup `STATUS_MAPPING.get(str(member.status), "offline")`: the canonical status
of a raw status string. -/
def statusGet (raw : String) : String :=
  (STATUS_MAPPING.lookup raw).getD "offline"

/-- The character test `c in "0123456789abcdefABCDEF"` from
`get_member_role_color`; this set of characters is exactly the regex
character class `[0-9A-Fa-f]`. -/
def isHexChar (c : Char) : Bool :=
  "0123456789abcdefABCDEF".data.contains c

/-- The custom-color validation from `get_member_role_color`:
`len(s) == 7 and s[0] == "#" and all(c in "0123456789abcdefABCDEF" for c in s[1:])`,
i.e. a match of `^#[0-9A-Fa-f]{6}$`. -/
def isValidHexColor (s : String) : Bool :=
  match s.data with
  | '#' :: rest => rest.length == 6 && rest.all isHexChar
  | _ => false

/-- The hex digit character for a value `< 16`, lowercase as `%x` prints. -/
def hexChar (n : Nat) : Char :=
  if n < 10 then Char.ofNat (48 + n) else Char.ofNat (87 + n)

/-- Big-endian hex digits of `n` (empty for `0`), with explicit fuel so the
recursion is structural; `fuel ≥ n` is always enough. -/
def natToHexDigitsAux (fuel : Nat) (n : Nat) : List Char :=
  match fuel with
  | 0 => []
  | fuel' + 1 =>
      if n = 0 then [] else natToHexDigitsAux fuel' (n / 16) ++ [hexChar (n % 16)]

/-- Big-endian hex digits of `n` (empty for `0`), as `%x` produces them
before padding. -/
def natToHexDigits (n : Nat) : List Char :=
  natToHexDigitsAux n n

/-- Models the Python format `f"#{value:06x}"` without the leading `#`:
lowercase hex, zero-padded on the left to at least 6 digits. -/
def natToHex6 (n : Nat) : String :=
  let ds := natToHexDigits n
  String.mk (List.replicate (6 - ds.length) '0' ++ ds)

/-- A value stored in the persisted config, as far as the embedded code
inspects it: a string, or any non-string value (`isinstance(x, str)` false). -/
inductive ConfVal where
  | vstr (s : String)
  | vother
  deriving Repr, DecidableEq

/-- One entry of the per-guild `members` config dict: the fields the embedded
code reads. `role_color = none` models `"role_color" not in` the entry. -/
structure MemberEntry where
  role_color : Option ConfVal
  deriving Repr, DecidableEq

/-- The per-guild `members` config dict, keyed by member id string;
`none` models `member_id_str not in members_config`. -/
def MembersConfig := String → Option MemberEntry

/-- A Discord role, as far as the embedded code reads it: `color.value`. -/
structure Role where
  color : Nat
  deriving Repr, DecidableEq

/-- A Discord member, as far as the embedded code reads it. `status` models
`str(member.status)`; `top_role = none` models a falsy `member.top_role`. -/
structure Member where
  id : Int
  display_name : String
  status : String
  top_role : Option Role
  deriving Repr, DecidableEq

/-- Function `get_member_role_color` from `websocket_server_manager.py` (with the
members config already fetched, as on the `get_user_data` path). -/
def get_member_role_color (member : Member) (members_config : MembersConfig) :
    String :=
  -- fall back to Discord's role color, else default to white
  let fallback :=
    match member.top_role with
    | some top_role =>
        if top_role.color ≠ 0 then "#" ++ natToHex6 top_role.color else "#ffffff"
    | none => "#ffffff"
  match members_config (toString member.id) with
  | some entry =>
      match entry.role_color with
      | some (.vstr custom_color) =>
          if isValidHexColor custom_color then custom_color else fallback
      | some .vother => fallback
      | none => fallback
  | none => fallback

/-- Python `path.lstrip("/")`: remove every leading `/`. -/
def lstripSlash (s : String) : String :=
  String.mk (s.data.dropWhile (· == '/'))

/-- Two consecutive dots somewhere in the character list. -/
def hasDotDot : List Char → Bool
  | '.' :: '.' :: _ => true
  | _ :: rest => hasDotDot rest
  | [] => false

/-- Python `".." in path`: substring containment of `..`. -/
def containsDotDot (s : String) : Bool :=
  hasDotDot s.data

/-- Python `path.startswith("/")`. -/
def startsWithSlash (s : String) : Bool :=
  match s.data with
  | '/' :: _ => true
  | _ => false

/-- Python `a.endswith("/")`. -/
def endsWithSlash (a : String) : Bool :=
  match a.data.getLast? with
  | some '/' => true
  | _ => false

/-- Models `os.path.join(a, b)` (posixpath): `b` if absolute, else `a` and
`b` joined with a single separator. -/
def osJoin (a b : String) : String :=
  if startsWithSlash b then b
  else if a = "" then b
  else if endsWithSlash a then a ++ b
  else a ++ "/" ++ b

/-- Function `handle_static_request` from `websocket_server_manager.py`.
`static_file_path` is the configured override root (`none` = unset);
`guess_type` is the `mimetypes.guess_type` collaborator, returning the MIME
type by extension or `none` when unknown.  The body is total, so the
`except` clause that converts any error to `None` is unreachable in the
model. -/
def handle_static_request (static_file_path : Option String)
    (guess_type : String → Option String) (path : String) :
    Option (String × String) :=
  if !optStrTruthy static_file_path then none
  else
    let root := static_file_path.getD ""
    let path1 := lstripSlash path
    if containsDotDot path1 || startsWithSlash path1 then none
    else
      let path2 := if path1 = "/" ∨ path1 = "" then "index.html" else path1
      let full_path := osJoin root path2
      let content_type := (guess_type full_path).getD "application/octet-stream"
      some (content_type, full_path)

/-- A Discord guild, as far as the embedded code reads it. -/
structure Guild where
  id : Int
  name : String
  members : List Member
  deriving Repr, DecidableEq

/-- Lookup `guild.get_member(user_id)`: lookup of a member by id in the guild's
member cache. -/
def Guild.get_member (g : Guild) (user_id : Int) : Option Member :=
  g.members.find? (fun m => m.id == user_id)

/-- The Discord bot, as far as the embedded code reads it: the guild cache. -/
structure DiscordBot where
  guilds : List Guild
  deriving Repr, DecidableEq

/-- Lookup `bot.get_guild(id)`: lookup of a guild by id in the bot's guild cache. -/
def DiscordBot.get_guild (b : DiscordBot) (guild_id : Int) : Option Guild :=
  b.guilds.find? (fun g => g.id == guild_id)

/-- The per-guild persisted config fields the embedded code reads. -/
structure GuildConf where
  passworded : Bool
  ignoreOfflineMembers : Bool
  members : MembersConfig

/-- The persisted config surface the embedded code reads: global fields plus
the per-guild config, keyed by guild id. -/
structure Config where
  client_id : Option String
  client_secret : Option String
  static_file_path : Option String
  guildConf : Int → GuildConf

/-- Insert-or-replace on an association list, modelling Python dict item
assignment `d[k] = v`: an existing key keeps its position, a new key is
appended (CPython insertion order). -/
def dictSet {β : Type} : List (String × β) → String → β → List (String × β)
  | [], k, v => [(k, v)]
  | e :: rest, k, v =>
      if e.1 == k then (k, v) :: rest else e :: dictSet rest k v

/-- Membership `k in d` on the association-list dict model. -/
def dictContains {β : Type} (d : List (String × β)) (k : String) : Bool :=
  d.any (fun e => e.1 == k)

/-- One value of the `server_data` dict built by `get_server_data`. -/
structure ServerRecord where
  id : String
  name : String
  default : Bool
  passworded : Bool
  deriving Repr, DecidableEq

/-- Expression `guild.name[:1].upper()`: the first character of the name, uppercased
(empty string when the name is empty). -/
def upperFirst (s : String) : String :=
  String.mk ((s.data.take 1).map Char.toUpper)

/-- The dict value inserted by `get_server_data` for one guild: abbreviation,
name, non-default, and the persisted `passworded` flag. -/
def serverRecordOf (config : Config) (guild : Guild) : ServerRecord :=
  { id := upperFirst guild.name
    name := guild.name
    default := false
    passworded := (config.guildConf guild.id).passworded }

/-- Function `get_server_data` from `websocket_server_manager.py`: builds the guild
snapshot dict keyed by guild id string, then marks the first key's record as
default when the dict is non-empty. -/
def get_server_data (bot : DiscordBot) (config : Config) : List (String × ServerRecord) :=
  let server_data := bot.guilds.foldl (fun d guild =>
    dictSet d (toString guild.id) (serverRecordOf config guild)) []
  match server_data.map Prod.fst with
  | [] => server_data
  | first_guild_id :: _ =>
      server_data.map (fun e =>
        if e.1 == first_guild_id then (e.1, { e.2 with default := true }) else e)

/-- One value of the `user_data` dict built by `get_user_data`. -/
structure UserRecord where
  uid : String
  username : String
  status : String
  roleColor : String
  deriving Repr, DecidableEq

/-- Function `get_user_data` from `websocket_server_manager.py`.  `int(...)` may raise
on a malformed id string, hence the `Except`; a missing/empty id or an
unknown guild yields an empty dict. -/
def get_user_data (bot : DiscordBot) (config : Config) (discord_server_id : Option String) :
    Except PyErr (List (String × UserRecord)) :=
  if !optStrTruthy discord_server_id then .ok []
  else
    match str_to_int (discord_server_id.getD "") with
    | .error e => .error e
    | .ok gid =>
      match bot.get_guild gid with
      | none => .ok []
      | some guild =>
          .ok (guild.members.foldl (fun user_data member =>
            if (config.guildConf guild.id).ignoreOfflineMembers
                && (statusGet member.status == "offline") then user_data
            else
              dictSet user_data (toString member.id)
                { uid := toString member.id
                  username := member.display_name
                  status := statusGet member.status
                  roleColor := get_member_role_color member
                    (config.guildConf guild.id).members }) [])

/-- Function `toggle_protection` from `config_manager.py`, as a state transition on
the persisted config: returns the `(success, message)` pair of the source and
the config after the call. -/
def toggle_protection (config : Config) (guild_id : Int) :
    (Bool × String) × Config :=
  if !optStrTruthy config.client_id || !optStrTruthy config.client_secret then
    ((false,
      "❌ Global OAuth2 client ID and client secret must be set before enabling password protection."),
     config)
  else
    let current_state := (config.guildConf guild_id).passworded
    let new_state := !current_state
    let config' :=
      { config with
        guildConf := fun g =>
          if g = guild_id then { config.guildConf g with passworded := new_state }
          else config.guildConf g }
    ((true,
      if new_state then "Password protection has been **enabled** for this server."
      else "Password protection has been **disabled** for this server."),
     config')

/-- Function `setclientid` from `dworld.py`, as a state transition: returns the config
after the call and the trace of `broadcast_client_id_update(guild_id, id)`
calls it makes (one per served guild when the stored id changed, none
otherwise). -/
def setclientid (bot : DiscordBot) (config : Config) (client_id : String) :
    Config × List (String × String) :=
  let old_client_id := config.client_id
  let config' := { config with client_id := some client_id }
  if old_client_id ≠ some client_id then
    (config', bot.guilds.map (fun guild => (toString guild.id, client_id)))
  else
    (config', [])

/-- The caller-supplied `user_info` dict, as far as the embedded code reads
it: `user_info.get("id")` and `user_info.get("username")`. -/
structure UserInfo where
  id : Option String
  username : Option String

/-- The body of the identity provider's `GET /users/@me` response, as far as
the embedded code reads it: `api_user_info.get("id")`. -/
structure ApiUser where
  id : Option String

/-- Outcome of the identity-provider HTTP call for a given bearer token: an
HTTP response, an `aiohttp.ClientError`, or some other exception raised
during the request. -/
inductive IdpOutcome where
  | response (status : Nat) (body : ApiUser)
  | raiseClientError
  | raiseOther

/-- The environment `validate_discord_user` runs in: the bot's guild cache,
the persisted config, and the identity provider as an oracle from token to
HTTP outcome. -/
structure Env where
  bot : DiscordBot
  config : Config
  idp : String → IdpOutcome

/-- The `try` body of `validate_discord_user` from
`websocket_server_manager.py` (identical in `dworld.py` and
`websocket_server_mixin.py`): the strict chain of checks, raising `PyErr`
where the source would raise. -/
def validateBody (env : Env) (token : String) (user_info : Option UserInfo)
    (discord_server_id : String) : Except PyErr Bool :=
  -- if not user_info or not user_info.get("id"): return False
  match user_info with
  | none => .ok false
  | some u =>
    if !optStrTruthy u.id then .ok false
    else
      match str_to_int discord_server_id with
      | .error e => .error e
      | .ok gid =>
        match env.bot.get_guild gid with
        | none => .ok false
        | some guild =>
          if !optStrTruthy env.config.client_id
              || !optStrTruthy env.config.client_secret then .ok false
          else
            match env.idp token with
            | .raiseClientError => .error .clientError
            | .raiseOther => .error .other
            | .response status api_user_info =>
              if status ≠ 200 then .ok false
              else if api_user_info.id ≠ u.id then .ok false
              else
                match u.id with
                | none => .error .other   -- unreachable: u.id is truthy here
                | some id_str =>
                  match str_to_int id_str with
                  | .error e => .error e
                  | .ok user_id =>
                    match guild.get_member user_id with
                    | none => .ok false
                    | some _ => .ok true

/-- Function `validate_discord_user`: the `try` body with the source's
`except aiohttp.ClientError` / `except Exception` handlers, both of which
return `False`. -/
def validate_discord_user (env : Env) (token : String)
    (user_info : Option UserInfo) (discord_server_id : String) :
    Except PyErr Bool :=
  match validateBody env token user_info discord_server_id with
  | .ok b => .ok b
  | .error _ => .ok false


/-! ## Concrete fixtures used by witnesses -/

/-- An all-defaults guild config: not passworded, offline members kept, no
member customization. -/
def guildConfW : GuildConf :=
  { passworded := false, ignoreOfflineMembers := false, members := fun _ => none }

/-- A member fixture with id 123 and no custom or role color. -/
def memberW : Member :=
  { id := 123, display_name := "alice", status := "online", top_role := none }

/-- A one-member guild fixture with id 1. -/
def guildW : Guild :=
  { id := 1, name := "Guild", members := [memberW] }

/-- A bot fixture serving `guildW`. -/
def botW : DiscordBot := { guilds := [guildW] }

/-- A config fixture with both credentials set. -/
def configW : Config :=
  { client_id := some "cid", client_secret := some "sec",
    static_file_path := none, guildConf := fun _ => guildConfW }

/-- A config fixture with the client secret unset. -/
def configNoSecretW : Config :=
  { client_id := some "cid", client_secret := none,
    static_file_path := none, guildConf := fun _ => guildConfW }

/-- An environment fixture whose identity provider accepts every token with
HTTP 200 and reports user id "999". -/
def envW : Env :=
  { bot := botW, config := configW,
    idp := fun _ => .response 200 { id := some "999" } }

/-! ## Theorems -/

/-- C6: `toCanonicalStatus` (the `STATUS_MAPPING` lookup with default) is a
total function into `{online, idle, dnd, offline}`: the four canonical values
map to themselves, `invisible` maps to `offline`, and every other raw status
value maps to `offline`, with no error case. -/
theorem statusGet_total_table :
    (statusGet "online" = "online" ∧ statusGet "idle" = "idle" ∧
     statusGet "dnd" = "dnd" ∧ statusGet "offline" = "offline" ∧
     statusGet "invisible" = "offline")
    ∧ (∀ raw : String,
        statusGet raw = "online" ∨ statusGet raw = "idle" ∨
        statusGet raw = "dnd" ∨ statusGet raw = "offline")
    ∧ (∀ raw : String,
        raw ∉ (["online", "idle", "dnd", "offline", "invisible"] : List String) →
        statusGet raw = "offline") := by
  refine ⟨by decide, ?_, ?_⟩
  · intro raw
    simp only [statusGet, STATUS_MAPPING, List.lookup, List.getD]
    repeat' split
    all_goals simp
  · intro raw hraw
    simp only [List.mem_cons, List.not_mem_nil, or_false, not_or] at hraw
    obtain ⟨h1, h2, h3, h4, h5⟩ := hraw
    have e1 : (raw == "online") = false := by simpa using h1
    have e2 : (raw == "idle") = false := by simpa using h2
    have e3 : (raw == "dnd") = false := by simpa using h3
    have e4 : (raw == "offline") = false := by simpa using h4
    have e5 : (raw == "invisible") = false := by simpa using h5
    simp [statusGet, STATUS_MAPPING, List.lookup, e1, e2, e3, e4, e5]

/-- Witness for C6 at the unrecognized raw status "streaming". -/
theorem statusGet_total_table_witness :
    ("streaming" ∉ (["online", "idle", "dnd", "offline", "invisible"] : List String))
    ∧ statusGet "streaming" = "offline" :=
  ⟨by decide, statusGet_total_table.2.2 "streaming" (by decide)⟩

/-- C3: when the global client id or client secret is empty/unset,
`toggle_protection` returns a failed outcome and the persisted config —
in particular every guild's `passworded` flag — is unchanged. -/
theorem toggle_protection_precondition (config : Config) (guild_id : Int)
    (h : optStrTruthy config.client_id = false ∨
         optStrTruthy config.client_secret = false) :
    (toggle_protection config guild_id).1.1 = false ∧
    (toggle_protection config guild_id).2 = config := by
  rcases h with h | h <;> simp [toggle_protection, h]

/-- Witness for C3: a config with the secret unset is left untouched. -/
theorem toggle_protection_precondition_witness :
    optStrTruthy configNoSecretW.client_secret = false ∧
    ((toggle_protection configNoSecretW 1).1.1 = false ∧
     (toggle_protection configNoSecretW 1).2 = configNoSecretW) :=
  ⟨rfl, toggle_protection_precondition configNoSecretW 1 (Or.inr rfl)⟩

/-- C5: `validate_discord_user` never raises to its caller: for every
environment (including identity-provider transport errors and every other
exception modelled in the body) it returns a boolean, never an error. -/
theorem validate_never_raises (env : Env) (token : String)
    (user_info : Option UserInfo) (discord_server_id : String) :
    ∃ b : Bool,
      validate_discord_user env token user_info discord_server_id = .ok b := by
  rcases hb : validateBody env token user_info discord_server_id with e | b
  · exact ⟨false, by simp [validate_discord_user, hb]⟩
  · exact ⟨b, by simp [validate_discord_user, hb]⟩

/-- C1: whenever the identity provider's returned user id differs from the
claimed user's id, `validate_discord_user` returns `false` — for any HTTP
status, in particular an accepting 200. -/
theorem validate_rejects_id_mismatch (env : Env) (token : String)
    (u : UserInfo) (discord_server_id : String) (status : Nat) (api : ApiUser)
    (hidp : env.idp token = .response status api)
    (hne : api.id ≠ u.id) :
    validate_discord_user env token (some u) discord_server_id = .ok false := by
  have hbody : validateBody env token (some u) discord_server_id ≠ .ok true := by
    intro hbody
    unfold validateBody at hbody
    rw [hidp] at hbody
    repeat' split at hbody
    all_goals simp_all
  rcases hb : validateBody env token (some u) discord_server_id with e | b
  · simp [validate_discord_user, hb]
  · cases b
    · simp [validate_discord_user, hb]
    · exact absurd hb hbody

/-- Witness for C1: the provider answers 200 with id "999" while the caller
claims id "123"; validation denies. -/
theorem validate_rejects_id_mismatch_witness :
    validate_discord_user envW "tok"
      (some { id := some "123", username := some "alice" }) "1" = .ok false :=
  validate_rejects_id_mismatch envW "tok"
    { id := some "123", username := some "alice" } "1" 200 { id := some "999" }
    rfl (by decide)

/-- A hex digit character is in the hex character class. -/
theorem isHexChar_hexChar (m : Nat) (hm : m < 16) : isHexChar (hexChar m) = true := by
  interval_cases m <;> decide

/-- Every character produced by `natToHexDigitsAux` is a hex character. -/
theorem natToHexDigitsAux_all_hex :
    ∀ (fuel n : Nat), ∀ c ∈ natToHexDigitsAux fuel n, isHexChar c = true := by
  intro fuel
  induction fuel with
  | zero => intro n c hc; simp [natToHexDigitsAux] at hc
  | succ fuel' ih =>
    intro n c hc
    unfold natToHexDigitsAux at hc
    by_cases hn : n = 0
    · simp [hn] at hc
    · rw [if_neg hn] at hc
      rcases List.mem_append.mp hc with h | h
      · exact ih _ c h
      · rcases List.mem_singleton.mp h with rfl
        exact isHexChar_hexChar _ (Nat.mod_lt _ (by decide))

/-- Bound on the number of hex digits: fewer than `k` digits for `n < 16^k`. -/
theorem natToHexDigitsAux_length_le :
    ∀ (fuel n k : Nat), n < 16 ^ k → (natToHexDigitsAux fuel n).length ≤ k := by
  intro fuel
  induction fuel with
  | zero => intro n k _; simp [natToHexDigitsAux]
  | succ fuel' ih =>
    intro n k hn
    unfold natToHexDigitsAux
    by_cases h0 : n = 0
    · simp [h0]
    · rw [if_neg h0]
      have hk : k ≠ 0 := by
        rintro rfl
        simp at hn
        exact h0 hn
      obtain ⟨k', rfl⟩ := Nat.exists_eq_succ_of_ne_zero hk
      have hdiv : n / 16 < 16 ^ k' := by
        rw [Nat.div_lt_iff_lt_mul (by decide : 0 < 16)]
        calc n < 16 ^ (k' + 1) := hn
          _ = 16 ^ k' * 16 := by ring
      have := ih (n / 16) k' hdiv
      simp only [List.length_append, List.length_singleton]
      omega

/-- For a color value below `2^24`, the `f"#{value:06x}"` format yields a
string matching `^#[0-9A-Fa-f]{6}$`. -/
theorem isValidHexColor_natToHex6 (n : Nat) (hn : n < 2 ^ 24) :
    isValidHexColor ("#" ++ natToHex6 n) = true := by
  have hlen : (natToHexDigits n).length ≤ 6 := by
    apply natToHexDigitsAux_length_le
    calc n < 2 ^ 24 := hn
      _ = 16 ^ 6 := by norm_num
  have hdata : ("#" ++ natToHex6 n).data
      = '#' :: (List.replicate (6 - (natToHexDigits n).length) '0'
                ++ natToHexDigits n) := by
    simp [natToHex6, String.data_append]
  rw [isValidHexColor, hdata]
  simp only [List.length_append, List.length_replicate, List.all_append,
    Bool.and_eq_true, beq_iff_eq, List.all_eq_true]
  refine ⟨by omega, ?_, ?_⟩
  · intro c hc
    rcases List.eq_of_mem_replicate hc with rfl
    decide
  · intro c hc
    exact natToHexDigitsAux_all_hex _ _ c hc

/-- Helper: a stored custom color that passes validation is returned as-is. -/
theorem get_member_role_color_of_valid (member : Member) (mc : MembersConfig)
    (s : String)
    (hs : (mc (toString member.id)).bind (fun e => e.role_color) = some (.vstr s))
    (hv : isValidHexColor s = true) :
    get_member_role_color member mc = s := by
  cases hmc : mc (toString member.id) with
  | none => simp [hmc] at hs
  | some entry =>
    cases hrc : entry.role_color with
    | none => simp [hmc, hrc] at hs
    | some v =>
      cases v with
      | vother => simp [hmc, hrc] at hs
      | vstr t =>
        have ht : t = s := by simpa [hmc, hrc] using hs
        subst ht
        simp [get_member_role_color, hmc, hrc, hv]

/-- Helper: with no valid stored custom color (missing entry, missing key,
non-string, or failed validation), the resolver returns the platform
fallback: the formatted non-zero top-role color, else white. -/
theorem get_member_role_color_of_invalid (member : Member) (mc : MembersConfig)
    (hinvalid : ∀ s : String,
        (mc (toString member.id)).bind (fun e => e.role_color) = some (.vstr s) →
        isValidHexColor s = false) :
    get_member_role_color member mc
      = match member.top_role with
        | some r => if r.color ≠ 0 then "#" ++ natToHex6 r.color else "#ffffff"
        | none => "#ffffff" := by
  unfold get_member_role_color
  cases hmc : mc (toString member.id) with
  | none => rfl
  | some entry =>
    cases hrc : entry.role_color with
    | none => simp [hrc]
    | some v =>
      cases v with
      | vother => simp [hrc]
      | vstr t => simp [hrc, hinvalid t (by simp [hmc, hrc])]

/-- C4: the role-color fallback chain. A stored custom color matching
`^#[0-9A-Fa-f]{6}$` is returned regardless of the platform role color;
otherwise (including a missing, non-string, or invalid stored value) a
non-zero platform top-role color is returned formatted as lowercase
`#rrggbb` zero-padded to 6 digits (the `f"#{value:06x}"` format); otherwise
the default `#ffffff` is returned. -/
theorem get_member_role_color_fallback_chain (member : Member) (mc : MembersConfig) :
    (∀ s : String,
        (mc (toString member.id)).bind (fun e => e.role_color) = some (.vstr s) →
        isValidHexColor s = true →
        get_member_role_color member mc = s)
    ∧ ((∀ s : String,
          (mc (toString member.id)).bind (fun e => e.role_color) = some (.vstr s) →
          isValidHexColor s = false) →
        (∀ r : Role, member.top_role = some r → r.color ≠ 0 →
          get_member_role_color member mc = "#" ++ natToHex6 r.color)
        ∧ ((member.top_role = none ∨ ∃ r, member.top_role = some r ∧ r.color = 0) →
          get_member_role_color member mc = "#ffffff")) := by
  constructor
  · intro s hs hv
    exact get_member_role_color_of_valid member mc s hs hv
  · intro hinvalid
    have hEq := get_member_role_color_of_invalid member mc hinvalid
    constructor
    · intro r hr hc
      rw [hEq, hr]
      show (if r.color ≠ 0 then "#" ++ natToHex6 r.color else "#ffffff")
          = "#" ++ natToHex6 r.color
      exact if_pos hc
    · rintro (h | ⟨r, hr, hc⟩)
      · rw [hEq, h]
      · rw [hEq, hr]
        show (if r.color ≠ 0 then "#" ++ natToHex6 r.color else "#ffffff")
            = "#ffffff"
        exact if_neg (not_not_intro hc)

/-- A member fixture with a red (0xff0000) top role. -/
def memberRedW : Member :=
  { id := 7, display_name := "bob", status := "online",
    top_role := some { color := 0xff0000 } }

/-- A members config fixture storing the custom color "#123abc" for member 7. -/
def mcCustomW : MembersConfig :=
  fun k => if k = "7" then some { role_color := some (.vstr "#123abc") } else none

/-- Witness for C4: the valid custom color wins over the red role color, and
with no customization the red role color is formatted. -/
theorem get_member_role_color_fallback_chain_witness :
    get_member_role_color memberRedW mcCustomW = "#123abc" ∧
    get_member_role_color memberRedW (fun _ => none) = "#" ++ natToHex6 0xff0000 := by
  constructor
  · exact (get_member_role_color_fallback_chain memberRedW mcCustomW).1
      "#123abc" (by decide) (by decide)
  · exact ((get_member_role_color_fallback_chain memberRedW (fun _ => none)).2
      (by intro s hs; simp at hs)).1 { color := 0xff0000 } rfl (by decide)

/-- C10: for every member and customization map, provided the platform
top-role color value is below `2^24`, the resolved color matches
`^#[0-9A-Fa-f]{6}$` on every branch of the fallback chain. -/
theorem get_member_role_color_always_hex (member : Member) (mc : MembersConfig)
    (hcolor : ∀ r : Role, member.top_role = some r → r.color < 2 ^ 24) :
    isValidHexColor (get_member_role_color member mc) = true := by
  by_cases hvalid : ∀ s : String,
      (mc (toString member.id)).bind (fun e => e.role_color) = some (.vstr s) →
      isValidHexColor s = false
  · rw [get_member_role_color_of_invalid member mc hvalid]
    cases hr : member.top_role with
    | none => decide
    | some r =>
      by_cases hc : r.color ≠ 0
      · show isValidHexColor
            (if r.color ≠ 0 then "#" ++ natToHex6 r.color else "#ffffff") = true
        rw [if_pos hc]
        exact isValidHexColor_natToHex6 _ (hcolor r hr)
      · show isValidHexColor
            (if r.color ≠ 0 then "#" ++ natToHex6 r.color else "#ffffff") = true
        rw [if_neg hc]
        decide
  · push_neg at hvalid
    obtain ⟨s, hs, hv⟩ := hvalid
    have hv' : isValidHexColor s = true := by simpa using hv
    rw [get_member_role_color_of_valid member mc s hs hv']
    exact hv'

/-- Witness for C10 at the red-role member with no customization. -/
theorem get_member_role_color_always_hex_witness :
    isValidHexColor (get_member_role_color memberRedW (fun _ => none)) = true :=
  get_member_role_color_always_hex memberRedW (fun _ => none)
    (by intro r hr
        have h : ({ color := 0xff0000 } : Role) = r := by
          simpa [memberRedW] using hr
        rw [← h]; decide)

/-- Counterexample to C2 as stated: with a configured override root, the
absolute path "/etc/passwd" is not rejected with `null` — `lstrip("/")`
removes the leading slash first, so the subsequent `startswith("/")` check
never fires and the path is resolved under the root. -/
theorem handle_static_absolute_not_null :
    ¬ handle_static_request (some "root") (fun _ => none) "/etc/passwd" = none := by
  decide

/-- C2 amended: with a configured override root, any requested path
containing a parent-directory segment (`..`) after leading-slash stripping is
rejected with `null` (in particular "../../etc/passwd"); an absolute path is
not rejected — its leading slashes are stripped and it is resolved under the
configured root, so "/etc/passwd" resolves to `<root>/etc/passwd`. -/
theorem handle_static_traversal_rejected (root : String)
    (guess_type : String → Option String) (hroot : root ≠ "") :
    (∀ path : String, containsDotDot (lstripSlash path) = true →
        handle_static_request (some root) guess_type path = none)
    ∧ handle_static_request (some root) guess_type "../../etc/passwd" = none
    ∧ handle_static_request (some root) guess_type "/etc/passwd"
        = some ((guess_type (osJoin root "etc/passwd")).getD
                  "application/octet-stream",
                osJoin root "etc/passwd") := by
  have htruthy : optStrTruthy (some root) = true := by simpa [optStrTruthy] using hroot
  refine ⟨?_, ?_, ?_⟩
  · intro path hdots
    simp [handle_static_request, htruthy, hdots]
  · have hdots : containsDotDot (lstripSlash "../../etc/passwd") = true := by decide
    simp [handle_static_request, htruthy, hdots]
  · have hdots : containsDotDot (lstripSlash "/etc/passwd") = false := by decide
    have hslash : startsWithSlash (lstripSlash "/etc/passwd") = false := by decide
    have hstrip : lstripSlash "/etc/passwd" = "etc/passwd" := by decide
    simp [handle_static_request, htruthy, hdots, hslash, hstrip]
    exact ⟨by decide, by decide⟩

/-- Witness for the amended C2 with the root "root" and unknown MIME types. -/
theorem handle_static_traversal_rejected_witness :
    handle_static_request (some "root") (fun _ => none) "../../etc/passwd" = none
    ∧ handle_static_request (some "root") (fun _ => none) "/etc/passwd"
        = some ("application/octet-stream", "root/etc/passwd") := by
  have h := handle_static_traversal_rejected "root" (fun _ => none) (by decide)
  exact ⟨h.2.1, h.2.2.trans (by decide)⟩

/-- C9: when `setclientid` stores a client id that differs from the
previously stored value, exactly one `broadcast_client_id_update` call is
made per served guild; when the new value equals the stored one, no
broadcast call is made for any guild. -/
theorem setclientid_broadcasts (bot : DiscordBot) (config : Config)
    (client_id : String)
    (hnodup : (bot.guilds.map (fun g => toString g.id)).Nodup) :
    (config.client_id = some client_id →
       (setclientid bot config client_id).2 = [])
    ∧ (config.client_id ≠ some client_id →
       ∀ g ∈ bot.guilds,
         ((setclientid bot config client_id).2.countP
            (fun call => call.1 == toString g.id)) = 1) := by
  constructor
  · intro h
    simp [setclientid, h]
  · intro h g hg
    have htrace : (setclientid bot config client_id).2
        = bot.guilds.map (fun guild => (toString guild.id, client_id)) := by
      simp [setclientid, h]
    rw [htrace, List.countP_map]
    have : (List.countP
          ((fun call => call.1 == toString g.id) ∘
            fun guild => ((toString guild.id, client_id) : String × String))
          bot.guilds)
        = List.count (toString g.id) (bot.guilds.map (fun g => toString g.id)) := by
      rw [List.count, List.countP_map]
      rfl
    rw [this]
    exact List.count_eq_one_of_mem hnodup
      (List.mem_map_of_mem (fun g => toString g.id) hg)

/-- Witness for C9: with stored id `none` and two served guilds, storing
"newid" broadcasts exactly once to guild "1"; with the same id stored,
no broadcast happens. -/
theorem setclientid_broadcasts_witness :
    ((setclientid botW configW "newid").2.countP
        (fun call => call.1 == "1")) = 1
    ∧ (setclientid botW { configW with client_id := some "newid" } "newid").2 = [] := by
  constructor
  · have h := (setclientid_broadcasts botW configW "newid" (by decide)).2
      (by decide) guildW (by decide)
    simpa using h
  · exact (setclientid_broadcasts botW
      { configW with client_id := some "newid" } "newid" (by decide)).1 rfl

/-- Key membership after a dict insert: the inserted key, or a key already
present. -/
theorem dictContains_dictSet {β : Type} (d : List (String × β)) (k k' : String)
    (v : β) :
    dictContains (dictSet d k v) k' = ((k == k') || dictContains d k') := by
  induction d with
  | nil => simp [dictSet, dictContains]
  | cons e rest ih =>
    by_cases h : (e.1 == k) = true
    · have he : e.1 = k := by simpa using h
      subst he
      simp only [dictSet, h, if_true, dictContains, List.any_cons]
      cases hkk : (e.1 == k') <;> simp [dictContains]
    · have h' : (e.1 == k) = false := by simpa using h
      simp only [dictSet, h', Bool.false_eq_true, if_false, dictContains,
        List.any_cons] at *
      rw [ih]
      cases e.1 == k' <;> cases k == k' <;> simp [dictContains]

/-- Key membership in a skip/insert fold: a key is present exactly when some
non-skipped element carries it (or it was present initially). -/
theorem dictContains_foldl {α β : Type} (key : α → String) (skip : α → Bool)
    (val : α → β) :
    ∀ (l : List α) (init : List (String × β)) (k : String),
      dictContains (l.foldl (fun ud m =>
          if skip m then ud else dictSet ud (key m) (val m)) init) k
        = (l.any (fun m => !skip m && (key m == k)) || dictContains init k) := by
  intro l
  induction l with
  | nil => intro init k; simp
  | cons m rest ih =>
    intro init k
    by_cases h : skip m = true
    · simp [h, ih]
    · have h' : skip m = false := by simpa using h
      simp only [List.foldl_cons, h', Bool.false_eq_true, if_false,
        List.any_cons, Bool.not_false, Bool.true_and]
      rw [ih, dictContains_dictSet]
      cases key m == k <;> cases rest.any (fun m => !skip m && (key m == k)) <;>
        cases dictContains init k <;> simp

/-- With pairwise-distinct keys, scanning a list for the key of one of its
elements finds exactly that element. -/
theorem any_filter_key {α : Type} (key : α → String) (f : α → Bool) :
    ∀ (l : List α) (m : α), m ∈ l → (l.map key).Nodup →
      l.any (fun x => f x && (key x == key m)) = f m := by
  intro l
  induction l with
  | nil => intro m hm _; simp at hm
  | cons a rest ih =>
    intro m hm hnd
    have h1 : key a ∉ rest.map key := (List.nodup_cons.mp hnd).1
    have h2 : (rest.map key).Nodup := (List.nodup_cons.mp hnd).2
    rcases List.mem_cons.mp hm with rfl | hm'
    · have hrest : rest.any (fun x => f x && (key x == key m)) = false := by
        rw [List.any_eq_false]
        intro x hx
        have hne : key x ≠ key m := by
          intro hcontra
          exact h1 (hcontra ▸ List.mem_map_of_mem key hx)
        simp [hne]
      simp [List.any_cons, hrest]
    · have hne : key a ≠ key m := by
        intro hcontra
        exact h1 (hcontra ▸ List.mem_map_of_mem key hm')
      simp [List.any_cons, ih m hm' h2, hne]

/-- C7: for a guild the bridge serves and pairwise-distinct member id
strings, `get_user_data` excludes a member from the snapshot iff
`ignoreOfflineMembers` is set and the member's canonical status is
`offline`; with the flag off every member is included. -/
theorem get_user_data_offline_filter (bot : DiscordBot) (config : Config)
    (s : String) (gid : Int) (g : Guild) (m : Member)
    (hs : s ≠ "") (hparse : str_to_int s = .ok gid)
    (hguild : bot.get_guild gid = some g)
    (hnodup : (g.members.map (fun x => toString x.id)).Nodup)
    (hm : m ∈ g.members) :
    ∃ ud, get_user_data bot config (some s) = .ok ud
      ∧ ((config.guildConf g.id).ignoreOfflineMembers = true →
          dictContains ud (toString m.id) = !(statusGet m.status == "offline"))
      ∧ ((config.guildConf g.id).ignoreOfflineMembers = false →
          dictContains ud (toString m.id) = true) := by
  have htruthy : optStrTruthy (some s) = true := by simpa [optStrTruthy] using hs
  refine ⟨g.members.foldl (fun user_data member =>
      if (config.guildConf g.id).ignoreOfflineMembers
          && (statusGet member.status == "offline") then user_data
      else
        dictSet user_data (toString member.id)
          { uid := toString member.id
            username := member.display_name
            status := statusGet member.status
            roleColor := get_member_role_color member
              (config.guildConf g.id).members }) [], ?_, ?_, ?_⟩
  · simp [get_user_data, htruthy, hparse, hguild]
  · intro hflag
    rw [hflag]
    simp only [Bool.true_and]
    rw [dictContains_foldl (fun (x : Member) => toString x.id)
      (fun (x : Member) => statusGet x.status == "offline")]
    rw [any_filter_key (fun (x : Member) => toString x.id)
      (fun (x : Member) => !(statusGet x.status == "offline")) g.members m hm hnodup]
    simp [dictContains]
  · intro hflag
    rw [hflag]
    rw [dictContains_foldl (fun (x : Member) => toString x.id)
      (fun (x : Member) => false && (statusGet x.status == "offline"))]
    simp only [Bool.false_and, Bool.not_false, Bool.true_and]
    have : g.members.any (fun (x : Member) => toString x.id == toString m.id) = true := by
      rw [List.any_eq_true]
      exact ⟨m, hm, by simp⟩
    simp [this]

/-- An offline member fixture with id 124. -/
def memberOffF : Member :=
  { id := 124, display_name := "carol", status := "offline", top_role := none }

/-- A guild fixture with an online and an offline member. -/
def guildF : Guild :=
  { id := 2, name := "Fixture", members := [memberW, memberOffF] }

/-- A bot fixture serving `guildF`. -/
def botF : DiscordBot := { guilds := [guildF] }

/-- A config fixture with `ignoreOfflineMembers` enabled everywhere. -/
def configIgnoreF : Config :=
  { client_id := none, client_secret := none, static_file_path := none,
    guildConf := fun _ =>
      { passworded := false, ignoreOfflineMembers := true,
        members := fun _ => none } }

/-- Witness for C7 at the offline member of the two-member fixture guild. -/
theorem get_user_data_offline_filter_witness :
    ∃ ud, get_user_data botF configIgnoreF (some "2") = .ok ud
      ∧ ((configIgnoreF.guildConf guildF.id).ignoreOfflineMembers = true →
          dictContains ud (toString memberOffF.id)
            = !(statusGet memberOffF.status == "offline"))
      ∧ ((configIgnoreF.guildConf guildF.id).ignoreOfflineMembers = false →
          dictContains ud (toString memberOffF.id) = true) :=
  get_user_data_offline_filter botF configIgnoreF "2" 2 guildF memberOffF
    (by decide) (by rfl) (by decide) (by decide) (by decide)

/-- A dict insert never yields an empty dict. -/
theorem dictSet_ne_nil {β : Type} (d : List (String × β)) (k : String) (v : β) :
    dictSet d k v ≠ [] := by
  cases d with
  | nil => simp [dictSet]
  | cons e rest =>
    by_cases h : (e.1 == k) = true <;> simp [dictSet, h]

/-- Every entry of a dict after an insert is the inserted pair or an original
entry. -/
theorem mem_dictSet {β : Type} :
    ∀ (d : List (String × β)) (k : String) (v : β) (e : String × β),
      e ∈ dictSet d k v → e = (k, v) ∨ e ∈ d := by
  intro d
  induction d with
  | nil => intro k v e he; simp [dictSet] at he; simp [he]
  | cons a rest ih =>
    intro k v e he
    by_cases h : (a.1 == k) = true
    · simp only [dictSet, h, if_true] at he
      rcases List.mem_cons.mp he with rfl | h2
      · exact Or.inl rfl
      · exact Or.inr (List.mem_cons_of_mem a h2)
    · have h' : (a.1 == k) = false := by simpa using h
      simp only [dictSet, h', Bool.false_eq_true, if_false] at he
      rcases List.mem_cons.mp he with rfl | h''
      · simp
      · rcases ih k v e h'' with h3 | h3 <;> simp [h3]

/-- Keys after a dict insert are among the inserted key and the old keys. -/
theorem keys_dictSet_subset {β : Type} (d : List (String × β)) (k : String)
    (v : β) (a : String) (ha : a ∈ (dictSet d k v).map Prod.fst) :
    a = k ∨ a ∈ d.map Prod.fst := by
  rcases List.mem_map.mp ha with ⟨e, he, rfl⟩
  rcases mem_dictSet d k v e he with rfl | h'
  · simp
  · exact Or.inr (List.mem_map_of_mem Prod.fst h')

/-- A dict insert preserves pairwise-distinct keys. -/
theorem nodupKeys_dictSet {β : Type} :
    ∀ (d : List (String × β)) (k : String) (v : β),
      (d.map Prod.fst).Nodup → ((dictSet d k v).map Prod.fst).Nodup := by
  intro d
  induction d with
  | nil => intro k v _; simp [dictSet]
  | cons e rest ih =>
    intro k v hnd
    have h1 : e.1 ∉ rest.map Prod.fst := (List.nodup_cons.mp hnd).1
    have h2 : (rest.map Prod.fst).Nodup := (List.nodup_cons.mp hnd).2
    by_cases h : (e.1 == k) = true
    · have he : e.1 = k := by simpa using h
      subst he
      simpa [dictSet, h] using hnd
    · have h' : (e.1 == k) = false := by simpa using h
      have hek : e.1 ≠ k := by simpa using h'
      simp only [dictSet, h', Bool.false_eq_true, if_false, List.map_cons]
      refine List.nodup_cons.mpr ⟨?_, ih k v h2⟩
      intro hcontra
      rcases keys_dictSet_subset rest k v e.1 hcontra with h3 | h3
      · exact hek h3
      · exact h1 h3

/-- An insert keeps the first key of a non-empty dict. -/
theorem headkey_dictSet {β : Type} (d : List (String × β)) (k : String) (v : β)
    (hd : d ≠ []) :
    ((dictSet d k v).map Prod.fst).head? = (d.map Prod.fst).head? := by
  cases d with
  | nil => exact absurd rfl hd
  | cons e rest =>
    by_cases h : (e.1 == k) = true
    · have he : e.1 = k := by simpa using h
      simp [dictSet, h, he]
    · have h' : (e.1 == k) = false := by simpa using h
      simp [dictSet, h']

/-- A fold of dict inserts from a non-empty dict stays non-empty. -/
theorem foldl_dictSet_ne_nil {α β : Type} (key : α → String) (val : α → β) :
    ∀ (l : List α) (d : List (String × β)), d ≠ [] →
      l.foldl (fun d x => dictSet d (key x) (val x)) d ≠ [] := by
  intro l
  induction l with
  | nil => intro d hd; simpa using hd
  | cons x rest ih =>
    intro d hd
    simpa using ih (dictSet d (key x) (val x)) (dictSet_ne_nil d (key x) (val x))

/-- A fold of dict inserts keeps the first key of a non-empty dict. -/
theorem foldl_dictSet_headkey {α β : Type} (key : α → String) (val : α → β) :
    ∀ (l : List α) (d : List (String × β)), d ≠ [] →
      ((l.foldl (fun d x => dictSet d (key x) (val x)) d).map Prod.fst).head?
        = (d.map Prod.fst).head? := by
  intro l
  induction l with
  | nil => intro d _; rfl
  | cons x rest ih =>
    intro d hd
    calc ((List.foldl (fun d x => dictSet d (key x) (val x))
            (dictSet d (key x) (val x)) rest).map Prod.fst).head?
        = ((dictSet d (key x) (val x)).map Prod.fst).head? :=
          ih _ (dictSet_ne_nil d (key x) (val x))
      _ = (d.map Prod.fst).head? := headkey_dictSet d (key x) (val x) hd

/-- A fold of dict inserts preserves pairwise-distinct keys. -/
theorem foldl_dictSet_nodupKeys {α β : Type} (key : α → String) (val : α → β) :
    ∀ (l : List α) (d : List (String × β)), (d.map Prod.fst).Nodup →
      ((l.foldl (fun d x => dictSet d (key x) (val x)) d).map Prod.fst).Nodup := by
  intro l
  induction l with
  | nil => intro d hd; simpa using hd
  | cons x rest ih =>
    intro d hd
    simpa using ih (dictSet d (key x) (val x)) (nodupKeys_dictSet d (key x) (val x) hd)

/-- A value property holding for the initial entries and all inserted values
holds for every entry of a fold of dict inserts. -/
theorem foldl_dictSet_values {α β : Type} (key : α → String) (val : α → β)
    (P : β → Prop) (hval : ∀ x, P (val x)) :
    ∀ (l : List α) (d : List (String × β)), (∀ e ∈ d, P e.2) →
      ∀ e ∈ l.foldl (fun d x => dictSet d (key x) (val x)) d, P e.2 := by
  intro l
  induction l with
  | nil => intro d hd e he; exact hd e (by simpa using he)
  | cons x rest ih =>
    intro d hd e he
    refine ih (dictSet d (key x) (val x)) ?_ e (by simpa using he)
    intro e' he'
    rcases mem_dictSet d (key x) (val x) e' he' with rfl | h'
    · exact hval x
    · exact hd e' h'

/-- C8: in every `get_server_data` snapshot built from a non-empty guild
list, exactly one record has `default = true`, namely the one keyed by the
first enumerated guild's id; an empty guild list yields an empty snapshot. -/
theorem get_server_data_unique_default (bot : DiscordBot) (config : Config) :
    (bot.guilds = [] → get_server_data bot config = [])
    ∧ (∀ (g : Guild) (gs : List Guild), bot.guilds = g :: gs →
        ∃ v rest, get_server_data bot config = (toString g.id, v) :: rest
          ∧ v.default = true
          ∧ (get_server_data bot config).countP (fun e => e.2.default) = 1) := by
  constructor
  · intro h
    simp [get_server_data, h]
  · intro g gs hgl
    unfold get_server_data
    rw [hgl]
    simp only [List.foldl_cons]
    have hinit : dictSet ([] : List (String × ServerRecord)) (toString g.id)
        (serverRecordOf config g)
        = [(toString g.id, serverRecordOf config g)] := rfl
    rw [hinit]
    obtain ⟨b, rest0, hbr⟩ : ∃ b rest0,
        List.foldl (fun d guild => dictSet d (toString guild.id)
            (serverRecordOf config guild))
          [(toString g.id, serverRecordOf config g)] gs = b :: rest0 := by
      cases hh : List.foldl (fun d guild => dictSet d (toString guild.id)
          (serverRecordOf config guild))
          [(toString g.id, serverRecordOf config g)] gs with
      | nil =>
        exact absurd hh (foldl_dictSet_ne_nil (fun x => toString x.id)
          (serverRecordOf config) gs _ (by simp))
      | cons b r => exact ⟨b, r, rfl⟩
    rw [hbr]
    have hb1 : b.1 = toString g.id := by
      have h := foldl_dictSet_headkey (fun x : Guild => toString x.id)
        (serverRecordOf config) gs [(toString g.id, serverRecordOf config g)]
        (by simp)
      rw [hbr] at h
      simpa using h
    have hnodup : ((b :: rest0).map Prod.fst).Nodup := by
      have h := foldl_dictSet_nodupKeys (fun x : Guild => toString x.id)
        (serverRecordOf config) gs [(toString g.id, serverRecordOf config g)]
        (by simp)
      rwa [hbr] at h
    have hvals : ∀ e ∈ b :: rest0, e.2.default = false := by
      have h := foldl_dictSet_values (fun x : Guild => toString x.id)
        (serverRecordOf config) (fun r => r.default = false)
        (fun x => rfl) gs [(toString g.id, serverRecordOf config g)]
        (by intro e he; simp at he; rw [he]; rfl)
      intro e he
      exact h e (hbr ▸ he)
    have hupd : (fun (e : String × ServerRecord) =>
        if e.1 == b.1 then (e.1, { e.2 with default := true }) else e) b
        = (toString g.id, { b.2 with default := true }) := by
      simp [hb1]
    have hcount : ((b :: rest0).map (fun e =>
        if e.1 == b.1 then (e.1, { e.2 with default := true }) else e)).countP
          (fun e => e.2.default) = 1 := by
      rw [List.countP_map]
      have hcong : ∀ e ∈ b :: rest0,
          (((fun (e : String × ServerRecord) => e.2.default) ∘ (fun e =>
            if e.1 == b.1 then (e.1, { e.2 with default := true }) else e)) e
              = true)
          ↔ ((e.1 == b.1) = true) := by
        intro e he
        by_cases hc : (e.1 == b.1) = true
        · simp [Function.comp, hc]
        · have hc' : (e.1 == b.1) = false := by simpa using hc
          simp [Function.comp, hc', hvals e he]
      rw [List.countP_congr hcong]
      have hcc : List.countP (fun e => e.1 == b.1) (b :: rest0)
          = List.count b.1 ((b :: rest0).map Prod.fst) := by
        rw [List.count, List.countP_map]
        rfl
      rw [hcc]
      exact List.count_eq_one_of_mem hnodup (by simp)
    simp only [List.map_cons]
    refine ⟨{ b.2 with default := true }, rest0.map (fun e =>
        if e.1 == b.1 then (e.1, { e.2 with default := true }) else e),
      ?_, rfl, ?_⟩
    · simp [hb1]
    · simpa using hcount

/-- A memberless guild fixture named Alpha. -/
def guildA : Guild := { id := 10, name := "Alpha", members := [] }

/-- A memberless guild fixture named Beta. -/
def guildB : Guild := { id := 11, name := "Beta", members := [] }

/-- A bot fixture serving the two guilds Alpha and Beta. -/
def botAB : DiscordBot := { guilds := [guildA, guildB] }

/-- A config fixture where only Beta is passworded. -/
def configAB : Config :=
  { client_id := some "cid", client_secret := some "sec",
    static_file_path := none,
    guildConf := fun gid =>
      if gid = 11 then
        { passworded := true, ignoreOfflineMembers := false,
          members := fun _ => none }
      else guildConfW }

/-- Witness for C8 on the two-guild fixture: the snapshot starts with Alpha's
record marked default, and exactly one record is default. -/
theorem get_server_data_unique_default_witness :
    ∃ v rest, get_server_data botAB configAB = (toString guildA.id, v) :: rest
      ∧ v.default = true
      ∧ (get_server_data botAB configAB).countP (fun e => e.2.default) = 1 :=
  (get_server_data_unique_default botAB configAB).2 guildA [guildB] rfl
